import Mathlib

/-!
Verification model of the PRAGATI backend's capability-adaptive spatial
schema and ingestion layer.

The model embeds, directly from the source:
* the fallback-mode bounding-box query of `GET /api/villages`
  (`WHERE (centroid_lat BETWEEN $1 AND $2 OR centroid_lat IS NULL) AND
  (centroid_lon BETWEEN $3 AND $4 OR centroid_lon IS NULL) ORDER BY name
  LIMIT $5`, bound as `[minLat, maxLat, minLon, maxLon, limit]`);
* the `importVillages` ingestion loop of `scripts/import-villages.js`
  (field extraction with upper-case fallbacks, the dedupe existence check
  `gid = $1 OR (name = $2 AND district = $3)` under SQL three-valued
  logic, the insert, and the `errors > 10` abort);
* the `SchemaManager` of `src/config/schema.js` (`enableExtensions`,
  `createTables`, `createIndexes`, `createTriggers`, `initializeSchema`,
  `getDatabaseStats`), with store failures supplied by an oracle keyed by
  the statement being executed.

Tables are lists in insertion order and numeric columns are rationals.
`ORDER BY name` is specified nondeterministically (`sortedArrangement`,
`admissibleQueryResult`): the store may return any name-sorted permutation
of the eligible rows, since PostgreSQL leaves the relative order of equal
sort keys unspecified.  `orderedVillages` / `queryByBoundingBox` are one
deterministic refinement of that contract, used to evaluate the query on
concrete inputs.
-/

/-- Code-point lexicographic comparison of character lists, `true` when the
first list sorts no later than the second.  This is the model of the text
ordering the store applies in `ORDER BY name`. -/
def listLeb : List Char → List Char → Bool
  | [], _ => true
  | _ :: _, [] => false
  | a :: as, b :: bs =>
    if a.toNat < b.toNat then true
    else if b.toNat < a.toNat then false
    else listLeb as bs

/-- Text ordering on column values, via `listLeb` on the underlying characters. -/
def strLeb (a b : String) : Bool := listLeb a.data b.data

theorem listLeb_refl (l : List Char) : listLeb l l = true := by
  induction l with
  | nil => rfl
  | cons a as ih => simp [listLeb, ih]

theorem listLeb_total (as bs : List Char) : listLeb as bs = true ∨ listLeb bs as = true := by
  induction as generalizing bs with
  | nil => left; rfl
  | cons a as ih =>
    cases bs with
    | nil => right; rfl
    | cons b bs =>
      rcases Nat.lt_trichotomy a.toNat b.toNat with h | h | h
      · left; simp [listLeb, h]
      · rcases ih bs with h2 | h2
        · left; simp [listLeb, h, h2]
        · right; simp [listLeb, h.symm, h2]
      · right; simp [listLeb, h]

theorem listLeb_trans (as bs cs : List Char) (h1 : listLeb as bs = true)
    (h2 : listLeb bs cs = true) : listLeb as cs = true := by
  induction as generalizing bs cs with
  | nil => rfl
  | cons a as ih =>
    cases bs with
    | nil => simp [listLeb] at h1
    | cons b bs =>
      cases cs with
      | nil => simp [listLeb] at h2
      | cons c cs =>
        simp only [listLeb] at h1 h2 ⊢
        rcases Nat.lt_trichotomy a.toNat b.toNat with hab | hab | hab <;>
          rcases Nat.lt_trichotomy b.toNat c.toNat with hbc | hbc | hbc
        · rw [if_pos (by omega : a.toNat < c.toNat)]
        · rw [if_pos (by omega : a.toNat < c.toNat)]
        · rw [if_neg (by omega : ¬ b.toNat < c.toNat), if_pos hbc] at h2
          exact absurd h2 Bool.false_ne_true
        · rw [if_pos (by omega : a.toNat < c.toNat)]
        · rw [if_neg (by omega : ¬ a.toNat < b.toNat),
            if_neg (by omega : ¬ b.toNat < a.toNat)] at h1
          rw [if_neg (by omega : ¬ b.toNat < c.toNat),
            if_neg (by omega : ¬ c.toNat < b.toNat)] at h2
          rw [if_neg (by omega : ¬ a.toNat < c.toNat),
            if_neg (by omega : ¬ c.toNat < a.toNat)]
          exact ih bs cs h1 h2
        · rw [if_neg (by omega : ¬ b.toNat < c.toNat), if_pos hbc] at h2
          exact absurd h2 Bool.false_ne_true
        · rw [if_neg (by omega : ¬ a.toNat < b.toNat), if_pos hab] at h1
          exact absurd h1 Bool.false_ne_true
        · rw [if_neg (by omega : ¬ a.toNat < b.toNat), if_pos hab] at h1
          exact absurd h1 Bool.false_ne_true
        · rw [if_neg (by omega : ¬ a.toNat < b.toNat), if_pos hab] at h1
          exact absurd h1 Bool.false_ne_true

/-- SQL three-valued equality on nullable text columns, read as the truth of a
WHERE clause: `a = b` holds only when both operands are non-NULL and equal. -/
def sqlEqS (a b : Option String) : Bool :=
  match a, b with
  | some x, some y => x == y
  | _, _ => false

/-- The clause `v BETWEEN lo AND hi OR v IS NULL` from the fallback bbox query:
a NULL column satisfies the clause, a non-NULL one must lie in the range. -/
def sqlNullOrBetween (v : Option Rat) (lo hi : Rat) : Bool :=
  match v with
  | none => true
  | some x => decide (lo ≤ x) && decide (x ≤ hi)

/-- A row of the `villages` table in fallback (no-PostGIS) layout: nullable
`gid`, non-null `name`, nullable hierarchy fields, and the two independent
scalar centroid columns `centroid_lat` / `centroid_lon` (both nullable). -/
structure VillageRow where
  gid : Option String
  name : String
  state : Option String
  district : Option String
  block : Option String
  centroid_lat : Option Rat
  centroid_lon : Option Rat
deriving DecidableEq, Repr

/-- The WHERE clause of the fallback bbox query with the parameters in their
bound positions: `$1 = minLat`, `$2 = maxLat`, `$3 = minLon`, `$4 = maxLon`. -/
def bboxWhere (r : VillageRow) (minLat maxLat minLon maxLon : Rat) : Bool :=
  sqlNullOrBetween r.centroid_lat minLat maxLat &&
    sqlNullOrBetween r.centroid_lon minLon maxLon

/-- The eligible result set of `GET /api/villages?bbox=minLon,minLat,maxLon,maxLat`:
the rows of the table passing the WHERE clause, still in insertion order.
The handler binds the query parameters as `[minLat, maxLat, minLon, maxLon]`. -/
def eligibleVillages (table : List VillageRow) (minLon minLat maxLon maxLat : Rat) :
    List VillageRow :=
  table.filter (fun r => bboxWhere r minLat maxLat minLon maxLon)

/-- Ordering used by `ORDER BY name`. -/
def vnameLe (a b : VillageRow) : Prop := strLeb a.name b.name = true

instance : DecidableRel vnameLe :=
  fun a b => inferInstanceAs (Decidable (strLeb a.name b.name = true))

instance : IsTotal VillageRow vnameLe :=
  ⟨fun a b => listLeb_total a.name.data b.name.data⟩

instance : IsTrans VillageRow vnameLe :=
  ⟨fun _ _ _ hab hbc => listLeb_trans _ _ _ hab hbc⟩

/-- One admissible pre-LIMIT result of the bbox query: a deterministic
refinement of `ORDER BY name` (an insertion sort over the scan order), used
to evaluate the query on concrete inputs.  The store's own contract fixes
only sortedness, not the relative order of equal names; that contract is
`sortedArrangement` below. -/
def orderedVillages (table : List VillageRow) (minLon minLat maxLon maxLat : Rat) :
    List VillageRow :=
  List.insertionSort vnameLe (eligibleVillages table minLon minLat maxLon maxLat)

/-- The full bbox query of `GET /api/villages` under the deterministic
refinement: filter, `ORDER BY name`, then `LIMIT limit`. -/
def queryByBoundingBox (table : List VillageRow) (minLon minLat maxLon maxLat : Rat)
    (limit : Nat) : List VillageRow :=
  (orderedVillages table minLon minLat maxLon maxLat).take limit

/-- The store's `ORDER BY name` contract: `out` is a name-sorted permutation
of `src`.  Which permutation is returned when names tie is not specified. -/
def sortedArrangement (src out : List VillageRow) : Prop :=
  List.Sorted vnameLe out ∧ out.Perm src

/-- Semantics of the whole bbox query `... ORDER BY name LIMIT limit`: the
store returns the first `limit` rows of some name-sorted arrangement of the
eligible set.  Everything the query guarantees must hold for every `out`
satisfying this predicate. -/
def admissibleQueryResult (table : List VillageRow) (minLon minLat maxLon maxLat : Rat)
    (limit : Nat) (out : List VillageRow) : Prop :=
  ∃ full, sortedArrangement (eligibleVillages table minLon minLat maxLon maxLat) full ∧
    out = full.take limit

/-- The `properties` attribute bag of one GeoJSON feature, restricted to the
fields `importVillages` reads.  Each field is nullable (absent); the loop
reads the lower-case field and falls back to the upper-cased variant. -/
structure FeatureProps where
  gid : Option String
  name : Option String
  NAME : Option String
  state : Option String
  STATE : Option String
  district : Option String
  DISTRICT : Option String
  block : Option String
  BLOCK : Option String
deriving DecidableEq, Repr

/-- One record of the boundary dataset: its attribute bag, plus a flag telling
whether the store rejects this record's INSERT (the per-record failure the
loop's try/catch counts). -/
structure Feature where
  props : FeatureProps
  insertFails : Bool
deriving DecidableEq, Repr

/-- JavaScript truthiness of a nullable string: `null` and the empty string
are falsy, as in the `a || b` fallback chains of the extraction code. -/
def jsTruthy (a : Option String) : Bool :=
  match a with
  | some s => !(s == "")
  | none => false

/-- The `villageData` object built per record by `importVillages`. -/
structure VillageData where
  gid : Option String
  name : String
  state : Option String
  district : Option String
  block : Option String
deriving DecidableEq, Repr

/-- Field extraction of `importVillages`:
`gid: properties.gid || null`, `name: properties.name || properties.NAME ||
'Unknown'`, and `state`/`district`/`block` analogously with upper-case
fallback then `null`. -/
def extractVillageData (p : FeatureProps) : VillageData where
  gid := if jsTruthy p.gid then p.gid else none
  name :=
    match (if jsTruthy p.name then p.name else if jsTruthy p.NAME then p.NAME else none) with
    | some s => s
    | none => "Unknown"
  state := if jsTruthy p.state then p.state else if jsTruthy p.STATE then p.STATE else none
  district :=
    if jsTruthy p.district then p.district
    else if jsTruthy p.DISTRICT then p.DISTRICT else none
  block := if jsTruthy p.block then p.block else if jsTruthy p.BLOCK then p.BLOCK else none

/-- The dedupe existence check
`SELECT id FROM villages WHERE gid = $1 OR (name = $2 AND district = $3)`
evaluated on one row under SQL three-valued logic (`name` is non-null in both
the row and the record, so plain equality applies there). -/
def dedupeMatch (row : VillageRow) (vd : VillageData) : Bool :=
  sqlEqS row.gid vd.gid || (row.name == vd.name && sqlEqS row.district vd.district)

/-- The row the ingestion INSERT creates: normalized fields, no centroid
(the fallback-mode insert supplies neither `centroid_lat` nor `centroid_lon`,
so both columns stay NULL). -/
def rowOfData (vd : VillageData) : VillageRow where
  gid := vd.gid
  name := vd.name
  state := vd.state
  district := vd.district
  block := vd.block
  centroid_lat := none
  centroid_lon := none

/-- Running state of the `importVillages` loop: the table contents plus the
`imported` / `skipped` / `errors` counters and whether the error budget broke
the loop. -/
structure ImportState where
  db : List VillageRow
  imported : Nat
  skipped : Nat
  errors : Nat
  halted : Bool
deriving DecidableEq, Repr

/-- One iteration of the `importVillages` loop.  After the break, nothing is
processed any more.  Otherwise: extract, run the dedupe existence check
against the live table, skip on a match; on no match attempt the INSERT —
a store failure is caught, counted, and breaks the loop once `errors > 10`;
a success appends the row and counts it as imported. -/
def processFeature (st : ImportState) (f : Feature) : ImportState :=
  if st.halted then st
  else
    let vd := extractVillageData f.props
    if st.db.any (fun row => dedupeMatch row vd) then
      { st with skipped := st.skipped + 1 }
    else if f.insertFails then
      { st with errors := st.errors + 1, halted := decide (10 < st.errors + 1) }
    else
      { st with db := st.db ++ [rowOfData vd], imported := st.imported + 1 }

/-- Initial loop state over an existing table. -/
def initImportState (db0 : List VillageRow) : ImportState :=
  { db := db0, imported := 0, skipped := 0, errors := 0, halted := false }

/-- The `importVillages` pipeline over a dataset, starting from table `db0`. -/
def importVillages (db0 : List VillageRow) (fs : List Feature) : ImportState :=
  fs.foldl processFeature (initImportState db0)

theorem processFeature_frozen (st : ImportState) (f : Feature) (h : st.halted = true) :
    processFeature st f = st := by
  simp [processFeature, h]

theorem foldl_frozen (fs : List Feature) : ∀ st : ImportState, st.halted = true →
    List.foldl processFeature st fs = st := by
  induction fs with
  | nil => intro st _; rfl
  | cons f fs ih =>
    intro st h
    rw [List.foldl_cons, processFeature_frozen st f h]
    exact ih st h

theorem processFeature_budget (st : ImportState) (f : Feature)
    (h1 : st.halted = true → st.errors = 11)
    (h2 : st.halted = false → st.errors ≤ 10) :
    ((processFeature st f).halted = true → (processFeature st f).errors = 11) ∧
      ((processFeature st f).halted = false → (processFeature st f).errors ≤ 10) := by
  by_cases hh : st.halted = true
  · rw [processFeature_frozen st f hh]
    exact ⟨h1, h2⟩
  · have hhf : st.halted = false := by simpa using hh
    have he : st.errors ≤ 10 := h2 hhf
    by_cases hm : (st.db.any fun row => dedupeMatch row (extractVillageData f.props)) = true
    · constructor <;> intro hd <;> simp [processFeature, hhf, hm] at hd ⊢ <;> omega
    · by_cases hf : f.insertFails = true
      · constructor <;> intro hd <;>
          simp [processFeature, hhf, hm, hf, decide_eq_true_eq] at hd ⊢ <;> omega
      · constructor <;> intro hd <;> simp [processFeature, hhf, hm, hf] at hd ⊢ <;> omega

theorem foldl_budget (fs : List Feature) : ∀ st : ImportState,
    (st.halted = true → st.errors = 11) → (st.halted = false → st.errors ≤ 10) →
    (((List.foldl processFeature st fs).halted = true →
        (List.foldl processFeature st fs).errors = 11) ∧
      ((List.foldl processFeature st fs).halted = false →
        (List.foldl processFeature st fs).errors ≤ 10)) := by
  induction fs with
  | nil => intro st h1 h2; exact ⟨h1, h2⟩
  | cons f fs ih =>
    intro st h1 h2
    have h := processFeature_budget st f h1 h2
    rw [List.foldl_cons]
    exact ih _ h.1 h.2

theorem foldl_db_extends (fs : List Feature) : ∀ st : ImportState,
    ∃ rest, (List.foldl processFeature st fs).db = st.db ++ rest := by
  induction fs with
  | nil => intro st; exact ⟨[], (List.append_nil _).symm⟩
  | cons f fs ih =>
    intro st
    obtain ⟨r1, hr1⟩ := ih (processFeature st f)
    have hstep : ∃ r0, (processFeature st f).db = st.db ++ r0 := by
      by_cases hh : st.halted = true
      · exact ⟨[], by simp [processFeature_frozen st f hh]⟩
      · have hhf : st.halted = false := by simpa using hh
        by_cases hm : (st.db.any fun row => dedupeMatch row (extractVillageData f.props)) = true
        · exact ⟨[], by simp [processFeature, hhf, hm]⟩
        · by_cases hf : f.insertFails = true
          · exact ⟨[], by simp [processFeature, hhf, hm, hf]⟩
          · exact ⟨[rowOfData (extractVillageData f.props)], by simp [processFeature, hhf, hm, hf]⟩
    obtain ⟨r0, hr0⟩ := hstep
    refine ⟨r0 ++ r1, ?_⟩
    rw [List.foldl_cons, hr1, hr0, List.append_assoc]

theorem step_keeps_unhalted (st : ImportState) (f : Feature) (hh : st.halted = false)
    (hf : f.insertFails = false) : (processFeature st f).halted = false := by
  by_cases hm : (st.db.any fun row => dedupeMatch row (extractVillageData f.props)) = true
  · simp [processFeature, hh, hm]
  · simp [processFeature, hh, hm, hf]

theorem dedupeMatch_self (vd : VillageData) (hg : vd.gid ≠ none) :
    dedupeMatch (rowOfData vd) vd = true := by
  cases hvd : vd.gid with
  | none => exact absurd hvd hg
  | some x => simp [dedupeMatch, rowOfData, sqlEqS, hvd]

theorem run_covers (fs : List Feature) : ∀ st : ImportState, st.halted = false →
    (∀ f ∈ fs, f.insertFails = false) →
    (∀ f ∈ fs, (extractVillageData f.props).gid ≠ none) →
    ∀ f ∈ fs, ∃ row ∈ (List.foldl processFeature st fs).db,
      dedupeMatch row (extractVillageData f.props) = true := by
  induction fs with
  | nil => intro st _ _ _ f hf; cases hf
  | cons g gs ih =>
    intro st hh hok hgid f hf
    rw [List.foldl_cons]
    rcases List.mem_cons.mp hf with hfg | hfgs
    · subst hfg
      obtain ⟨rest, hrest⟩ := foldl_db_extends gs (processFeature st f)
      by_cases hm : (st.db.any fun row => dedupeMatch row (extractVillageData f.props)) = true
      · obtain ⟨row, hrmem, hrmatch⟩ := List.any_eq_true.mp hm
        have hdb : (processFeature st f).db = st.db := by simp [processFeature, hh, hm]
        refine ⟨row, ?_, hrmatch⟩
        rw [hrest, hdb]
        exact List.mem_append_left _ hrmem
      · have hgok : f.insertFails = false := hok f (List.mem_cons_self _ _)
        have hdb : (processFeature st f).db =
            st.db ++ [rowOfData (extractVillageData f.props)] := by
          simp [processFeature, hh, hm, hgok]
        refine ⟨rowOfData (extractVillageData f.props), ?_, ?_⟩
        · rw [hrest, hdb, List.append_assoc]
          exact List.mem_append_right _ (List.mem_append_left _ (List.mem_singleton.mpr rfl))
        · exact dedupeMatch_self _ (hgid f (List.mem_cons_self _ _))
    · exact ih (processFeature st g)
        (step_keeps_unhalted st g hh (hok g (List.mem_cons_self _ _)))
        (fun f' hf' => hok f' (List.mem_cons_of_mem _ hf'))
        (fun f' hf' => hgid f' (List.mem_cons_of_mem _ hf'))
        f hfgs

theorem run_all_skip (fs : List Feature) : ∀ st : ImportState, st.halted = false →
    (∀ f ∈ fs, ∃ row ∈ st.db, dedupeMatch row (extractVillageData f.props) = true) →
    List.foldl processFeature st fs = { st with skipped := st.skipped + fs.length } := by
  induction fs with
  | nil => intro st _ _; simp
  | cons g gs ih =>
    intro st hh hcov
    obtain ⟨row, hmem, hmatch⟩ := hcov g (List.mem_cons_self _ _)
    have hm : (st.db.any fun r => dedupeMatch r (extractVillageData g.props)) = true :=
      List.any_eq_true.mpr ⟨row, hmem, hmatch⟩
    have hstep : processFeature st g = { st with skipped := st.skipped + 1 } := by
      simp [processFeature, hh, hm]
    rw [List.foldl_cons, hstep,
      ih { st with skipped := st.skipped + 1 } hh
        (fun f' hf' => hcov f' (List.mem_cons_of_mem _ hf'))]
    rw [List.length_cons, show st.skipped + 1 + gs.length = st.skipped + (gs.length + 1) from by
      omega]

/-- Failure oracle for store statements: `fails k = true` means the statement
with key `k` (an extension enable, table / index / trigger / function
creation, or a count query) raises when executed. -/
structure Oracle where
  fails : String → Bool

/-- Observable schema state of the store: which extensions, tables, indexes,
functions and triggers exist, each list in creation order. -/
structure SchemaState where
  extensions : List String
  tables : List String
  indexes : List String
  functions : List String
  triggers : List String
deriving DecidableEq, Repr

/-- `CREATE ... IF NOT EXISTS` semantics on a name list. -/
def createIfAbsent (l : List String) (x : String) : List String :=
  if x ∈ l then l else l ++ [x]

/-- The schema-touching statements whose failure propagates (no try/catch in
the source around them): table creation, `CREATE OR REPLACE FUNCTION`, and
`DROP TRIGGER IF EXISTS ...; CREATE TRIGGER ...`. -/
inductive SchemaOp where
  | tbl (name : String)
  | fn (name : String)
  | trg (name : String)
deriving DecidableEq, Repr

/-- Oracle key of a statement. -/
def opKey : SchemaOp → String
  | .tbl n => "table:" ++ n
  | .fn n => "func:" ++ n
  | .trg n => "trigger:" ++ n

/-- Effect of one successful statement: create-if-absent for tables,
create-or-replace for functions (the body is determined by the mode, so only
presence is tracked), and drop-then-create for triggers. -/
def applyOp (st : SchemaState) : SchemaOp → SchemaState
  | .tbl n => { st with tables := createIfAbsent st.tables n }
  | .fn n => { st with functions := createIfAbsent st.functions n }
  | .trg n => { st with triggers := st.triggers.erase n ++ [n] }

/-- Run a sequence of fatal statements, stopping at the first failure (which
propagates as the thrown error). -/
def runOps (o : Oracle) : List SchemaOp → SchemaState → Except String SchemaState
  | [], st => .ok st
  | op :: ops, st =>
    if o.fails (opKey op) then .error (opKey op)
    else runOps o ops (applyOp st op)

/-- The extension list of `enableExtensions`, in source order, each with its
`required` flag — all four are optional in the source. -/
def extensionSpecs : List (String × Bool) :=
  [("pg_trgm", false), ("btree_gist", false), ("postgis", false), ("postgis_topology", false)]

/-- The loop body of `enableExtensions`: each enable is attempted in order; a
failure is rethrown only when the extension is `required`, otherwise logged
and swallowed; `postgisAvailable` becomes true exactly when the `postgis`
enable succeeds.  The third component records the order of attempts. -/
def enableLoop (o : Oracle) :
    List (String × Bool) → SchemaState → Bool → List String →
      Except String (SchemaState × Bool × List String)
  | [], st, pg, tr => .ok (st, pg, tr)
  | (n, req) :: rest, st, pg, tr =>
    if o.fails ("ext:" ++ n) then
      if req then .error ("CapabilityError: " ++ n)
      else enableLoop o rest st pg (tr ++ [n])
    else
      enableLoop o rest { st with extensions := createIfAbsent st.extensions n }
        (pg || n == "postgis") (tr ++ [n])

/-- `SchemaManager.enableExtensions`. -/
def enableExtensions (o : Oracle) (st : SchemaState) :
    Except String (SchemaState × Bool × List String) :=
  enableLoop o extensionSpecs st false []

/-- The five tables of `createTables`, in source order. -/
def tableOps : List SchemaOp :=
  [.tbl "villages", .tbl "claimants", .tbl "micro_assets", .tbl "documents", .tbl "users"]

/-- `SchemaManager.createTables`: five `CREATE TABLE IF NOT EXISTS`
statements with no try/catch — the first failure propagates. -/
def createTables (o : Oracle) (st : SchemaState) : Except String SchemaState :=
  runOps o tableOps st

/-- Mode-dependent index names of `createIndexes`: GIST spatial indexes in
native mode, scalar-centroid and GIN document indexes in fallback mode. -/
def modeIndexNames (pg : Bool) : List String :=
  if pg then
    ["idx_villages_boundary_gist", "idx_villages_centroid", "idx_claimants_geom_gist",
      "idx_micro_assets_geom_gist"]
  else
    ["idx_villages_centroid_lat", "idx_villages_centroid_lon", "idx_villages_boundary_geojson",
      "idx_claimants_geometry_geojson", "idx_micro_assets_geometry_geojson"]

/-- Mode-independent index names of `createIndexes`, in source order. -/
def commonIndexNames : List String :=
  ["idx_villages_district", "idx_claimants_village_id", "idx_claimants_type",
    "idx_claimants_status", "idx_micro_assets_village_id", "idx_micro_assets_type",
    "idx_documents_claimant_id", "idx_documents_filename"]

/-- One index-creation attempt: a failure is caught and reduced to a warning,
leaving the state unchanged. -/
def applyIndex (o : Oracle) (st : SchemaState) (name : String) : SchemaState :=
  if o.fails ("index:" ++ name) then st
  else { st with indexes := createIfAbsent st.indexes name }

/-- `SchemaManager.createIndexes`: first the opportunistic trigram index on
the village name is attempted (its failure queues the plain
`idx_villages_name` substitute, executed at the end of the loop), then the
mode indexes and the common indexes.  Every attempt is inside a try/catch, so
this function is total: no index failure escapes. -/
def createIndexes (o : Oracle) (pg : Bool) (st : SchemaState) : SchemaState :=
  let st1 := applyIndex o st "idx_villages_name_trgm"
  let names := modeIndexNames pg ++ commonIndexNames ++
    (if o.fails "index:idx_villages_name_trgm" then ["idx_villages_name"] else [])
  names.foldl (applyIndex o) st1

/-- The function/trigger statements of `createTriggers` for the given mode, in
source order.  They are not wrapped in try/catch. -/
def triggerOps (pg : Bool) : List SchemaOp :=
  if pg then
    [.fn "update_village_centroid", .trg "trg_update_village_centroid",
      .fn "update_updated_at_column", .trg "trg_update_claimants_updated_at",
      .trg "trg_update_micro_assets_updated_at"]
  else
    [.fn "update_village_centroid_simple", .trg "trg_update_village_centroid_simple",
      .fn "update_updated_at_column", .trg "trg_update_claimants_updated_at",
      .trg "trg_update_micro_assets_updated_at"]

/-- `SchemaManager.createTriggers`. -/
def createTriggers (o : Oracle) (pg : Bool) (st : SchemaState) : Except String SchemaState :=
  runOps o (triggerOps pg) st

/-- `SchemaManager.initializeSchema`: enable extensions, then create tables,
indexes and triggers, rethrowing any uncaught failure. -/
def initializeSchema (o : Oracle) (st : SchemaState) : Except String SchemaState :=
  match enableExtensions o st with
  | .error e => .error e
  | .ok (st1, pg, _) =>
    match createTables o st1 with
    | .error e => .error e
    | .ok st2 => createTriggers o pg (createIndexes o pg st2)

/-- A store with no schema objects at all. -/
def emptySchema : SchemaState :=
  { extensions := [], tables := [], indexes := [], functions := [], triggers := [] }

/-- Oracle of a store where every statement succeeds (PostGIS available). -/
def oracleFull : Oracle := ⟨fun _ => false⟩

/-- Oracle of a store without spatial support: the `postgis` and
`postgis_topology` enables fail, everything else succeeds. -/
def oracleNoSpatial : Oracle :=
  ⟨fun k => k == "ext:postgis" || k == "ext:postgis_topology"⟩

/-- Checks that a provisioning result is a success whose object lists hold no
duplicate names. -/
def schemaNoDup : Except String SchemaState → Bool
  | .ok s =>
    decide s.extensions.Nodup && decide s.tables.Nodup && decide s.indexes.Nodup &&
      decide s.functions.Nodup && decide s.triggers.Nodup
  | .error _ => false

/-- The five entity tables `getDatabaseStats` counts, in source order. -/
def entityTables : List String :=
  ["villages", "claimants", "micro_assets", "documents", "users"]

/-- A per-table stats entry: a row count, or the `'Error'` marker the catch
block stores when the count query fails. -/
inductive StatEntry where
  | count (n : Nat)
  | errorMarker
deriving DecidableEq, Repr

/-- The loop of `getDatabaseStats`: each table's count query runs in its own
try/catch, producing either its count or the error marker. -/
def statsLoop (o : Oracle) (counts : String → Nat) : List String → List (String × StatEntry)
  | [] => []
  | t :: ts =>
    (t, if o.fails ("count:" ++ t) then StatEntry.errorMarker else StatEntry.count (counts t)) ::
      statsLoop o counts ts

/-- `SchemaManager.getDatabaseStats` over a store whose per-table row counts
are given by `counts` and whose count-query failures are given by the oracle. -/
def getDatabaseStats (o : Oracle) (counts : String → Nat) : List (String × StatEntry) :=
  statsLoop o counts entityTables

instance : DecidableEq (Except String SchemaState) := fun a b =>
  match a, b with
  | .ok x, .ok y => decidable_of_iff (x = y) (by simp)
  | .error x, .error y => decidable_of_iff (x = y) (by simp)
  | .ok _, .error _ => isFalse (by simp)
  | .error _, .ok _ => isFalse (by simp)

/-- Success test for a provisioning step. -/
def isOkE (r : Except String SchemaState) : Bool :=
  match r with
  | .ok _ => true
  | .error _ => false

theorem runOps_ok_iff (o : Oracle) (ops : List SchemaOp) : ∀ st : SchemaState,
    isOkE (runOps o ops st) = ops.all (fun op => !o.fails (opKey op)) := by
  induction ops with
  | nil => intro st; rfl
  | cons op ops ih =>
    intro st
    by_cases h : o.fails (opKey op) = true
    · simp [runOps, h, isOkE]
    · have hf : o.fails (opKey op) = false := by simpa using h
      simp [runOps, hf, ih]

theorem runOps_preserves_indexes (o : Oracle) (ops : List SchemaOp) : ∀ st s : SchemaState,
    runOps o ops st = .ok s → s.indexes = st.indexes := by
  induction ops with
  | nil => intro st s h; cases h; rfl
  | cons op ops ih =>
    intro st s h
    rw [runOps] at h
    by_cases hf : o.fails (opKey op) = true
    · rw [if_pos hf] at h; cases h
    · rw [if_neg hf] at h
      have := ih (applyOp st op) s h
      rw [this]
      cases op <;> rfl

theorem mem_createIfAbsent (l : List String) (x : String) : x ∈ createIfAbsent l x := by
  rw [createIfAbsent]
  split
  · assumption
  · exact List.mem_append_right _ (List.mem_singleton.mpr rfl)

theorem enableExtensions_spec (o : Oracle) (st : SchemaState) :
    ∃ s, enableExtensions o st =
      .ok (s, !(o.fails "ext:postgis"),
        ["pg_trgm", "btree_gist", "postgis", "postgis_topology"]) := by
  cases h1 : o.fails "ext:pg_trgm" <;> cases h2 : o.fails "ext:btree_gist" <;>
    cases h3 : o.fails "ext:postgis" <;> cases h4 : o.fails "ext:postgis_topology" <;>
    exact ⟨_, by simp [enableExtensions, enableLoop, extensionSpecs, h1, h2, h3, h4]; all_goals rfl⟩

theorem createIndexes_fallback_name_index (o : Oracle) (pg : Bool) (st : SchemaState)
    (htr : o.fails "index:idx_villages_name_trgm" = true)
    (hpl : o.fails "index:idx_villages_name" = false) :
    "idx_villages_name" ∈ (createIndexes o pg st).indexes := by
  rw [createIndexes]
  simp only [htr, if_true]
  rw [List.foldl_append]
  simp only [List.foldl_cons, List.foldl_nil]
  rw [applyIndex, if_neg (by simp [hpl])]
  exact mem_createIfAbsent _ _

theorem initializeSchema_isOk (o : Oracle) (st : SchemaState) :
    isOkE (initializeSchema o st) =
      (tableOps.all (fun op => !o.fails (opKey op)) &&
        (triggerOps (!(o.fails "ext:postgis"))).all (fun op => !o.fails (opKey op))) := by
  obtain ⟨s1, hE⟩ := enableExtensions_spec o st
  simp only [initializeSchema, hE]
  cases hT : createTables o s1 with
  | error e =>
    have h1 := runOps_ok_iff o tableOps s1
    rw [show runOps o tableOps s1 = createTables o s1 from rfl, hT] at h1
    simp only [isOkE] at h1 ⊢
    rw [← h1, Bool.false_and]
  | ok s2 =>
    have h1 := runOps_ok_iff o tableOps s1
    rw [show runOps o tableOps s1 = createTables o s1 from rfl, hT] at h1
    simp only [isOkE] at h1
    have h2 := runOps_ok_iff o (triggerOps (!(o.fails "ext:postgis")))
      (createIndexes o (!(o.fails "ext:postgis")) s2)
    rw [show runOps o (triggerOps (!(o.fails "ext:postgis")))
          (createIndexes o (!(o.fails "ext:postgis")) s2) =
        createTriggers o (!(o.fails "ext:postgis"))
          (createIndexes o (!(o.fails "ext:postgis")) s2) from rfl] at h2
    rw [h2, ← h1, Bool.true_and]

/-- C1: in fallback mode, a Village row whose `centroid_lat` and `centroid_lon`
are both NULL is in the eligible result set of the `/api/villages` bounding-box
query for every bounding box: rows lacking a centroid are never excluded by
the box filter. -/
theorem nullCentroid_always_eligible (table : List VillageRow)
    (minLon minLat maxLon maxLat : Rat) (r : VillageRow) (hmem : r ∈ table)
    (hlat : r.centroid_lat = none) (hlon : r.centroid_lon = none) :
    r ∈ eligibleVillages table minLon minLat maxLon maxLat := by
  rw [eligibleVillages]
  refine List.mem_filter.mpr ⟨hmem, ?_⟩
  simp [bboxWhere, sqlNullOrBetween, hlat, hlon]

/-- A fallback-mode row with no centroid at all. -/
def nullCentroidRow : VillageRow :=
  { gid := some "g-null", name := "NoCentroid", state := none, district := none, block := none,
    centroid_lat := none, centroid_lon := none }

/-- Witness for C1 at a concrete row and box. -/
theorem nullCentroid_always_eligible_witness :
    nullCentroidRow ∈ eligibleVillages [nullCentroidRow] 77 20 78 21 :=
  nullCentroid_always_eligible [nullCentroidRow] 77 20 78 21 nullCentroidRow
    (List.mem_singleton.mpr rfl) rfl rfl

/-- Two distinct Village rows sharing the name `Tiegaon`, inserted with
`rowTieA` first; their centroids are NULL so every box keeps both eligible. -/
def rowTieA : VillageRow :=
  { gid := some "t-a", name := "Tiegaon", state := none, district := none, block := none,
    centroid_lat := none, centroid_lon := none }

/-- The second, later-inserted row with the same name as `rowTieA`. -/
def rowTieB : VillageRow :=
  { gid := some "t-b", name := "Tiegaon", state := none, district := none, block := none,
    centroid_lat := none, centroid_lon := none }

/-- C4 counterexample: the bbox query's `ORDER BY name` does not break ties by
insertion order.  Over the table `[rowTieA, rowTieB]` (rowTieA inserted
first, equal names) the output `[rowTieB, rowTieA]` — the ties in reverse
insertion order — satisfies everything `ORDER BY name LIMIT 2` requires of
the store, so the claim's tie-break (and with it the uniqueness of "the"
ordered unlimited result that limit would truncate) is not guaranteed by the
query the code issues. -/
theorem orderBy_tie_order_not_guaranteed :
    rowTieA ≠ rowTieB ∧ rowTieA.name = rowTieB.name ∧
      admissibleQueryResult [rowTieA, rowTieB] 77 20 78 21 2 [rowTieB, rowTieA] ∧
      [rowTieB, rowTieA] ≠ [rowTieA, rowTieB] := by
  refine ⟨by decide, rfl, ⟨[rowTieB, rowTieA], ⟨?_, ?_⟩, rfl⟩, by decide⟩
  · rw [List.sorted_cons]
    constructor
    · intro b hb
      rw [List.mem_singleton] at hb
      subst hb
      exact listLeb_refl _
    · exact List.sorted_singleton _
  · rw [show eligibleVillages [rowTieA, rowTieB] 77 20 78 21 = [rowTieA, rowTieB] from by decide]
    exact List.Perm.swap _ _ _

/-- C4 amended: for every bounding box, limit and admissible store result,
the result is sorted by name ascending; every returned row is eligible, and
the limit never changes eligibility — the limited result is the first `n`
elements of an admissible ordered unlimited result (one taken at the eligible
set's full cardinality); and the deterministic refinement
`queryByBoundingBox` is itself admissible.  The relative order of equal-named
rows is left unspecified by the query (see the counterexample). -/
theorem query_ordered_eligible_truncated (table : List VillageRow)
    (minLon minLat maxLon maxLat : Rat) (n : Nat) (out : List VillageRow)
    (h : admissibleQueryResult table minLon minLat maxLon maxLat n out) :
    List.Sorted vnameLe out ∧
      (∀ r ∈ out, r ∈ eligibleVillages table minLon minLat maxLon maxLat) ∧
      (∃ full, admissibleQueryResult table minLon minLat maxLon maxLat
          (eligibleVillages table minLon minLat maxLon maxLat).length full ∧
        out = full.take n) ∧
      admissibleQueryResult table minLon minLat maxLon maxLat n
        (queryByBoundingBox table minLon minLat maxLon maxLat n) := by
  obtain ⟨full, ⟨hs, hp⟩, hout⟩ := h
  refine ⟨?_, ?_, ?_, ?_⟩
  · rw [hout]
    exact hs.sublist (List.take_sublist n full)
  · intro r hr
    rw [hout] at hr
    exact hp.mem_iff.mp (List.take_subset n full hr)
  · refine ⟨full, ⟨full, ⟨hs, hp⟩, ?_⟩, hout⟩
    rw [← hp.length_eq, List.take_length]
  · exact ⟨List.insertionSort vnameLe (eligibleVillages table minLon minLat maxLon maxLat),
      ⟨List.sorted_insertionSort vnameLe _, List.perm_insertionSort vnameLe _⟩, rfl⟩

/-- Witness for the amended C4: instantiated on the tied table and the
reverse-tie admissible output. -/
theorem query_ordered_eligible_truncated_witness :
    List.Sorted vnameLe [rowTieB, rowTieA] ∧
      admissibleQueryResult [rowTieA, rowTieB] 77 20 78 21 2
        (queryByBoundingBox [rowTieA, rowTieB] 77 20 78 21 2) := by
  have hadm : admissibleQueryResult [rowTieA, rowTieB] 77 20 78 21 2 [rowTieB, rowTieA] := by
    refine ⟨[rowTieB, rowTieA], ⟨?_, ?_⟩, rfl⟩
    · rw [List.sorted_cons]
      constructor
      · intro b hb
        rw [List.mem_singleton] at hb
        subst hb
        exact listLeb_refl _
      · exact List.sorted_singleton _
    · rw [show eligibleVillages [rowTieA, rowTieB] 77 20 78 21 = [rowTieA, rowTieB] from by
        decide]
      exact List.Perm.swap _ _ _
  have h := query_ordered_eligible_truncated [rowTieA, rowTieB] 77 20 78 21 2
    [rowTieB, rowTieA] hadm
  exact ⟨h.1, h.2.2.2⟩

/-- A Village with centroid latitude 20.2961 and longitude 85.8245, outside
the box `[77,20,78,21]` (its longitude misses `[77,78]`). -/
def villageOutsideBox : VillageRow :=
  { gid := some "g-out", name := "Bhubaneswar", state := some "Odisha",
    district := some "Khordha", block := none,
    centroid_lat := some (Rat.divInt 202961 10000),
    centroid_lon := some (Rat.divInt 858245 10000) }

/-- A Village with centroid latitude 20.5 and longitude 77.5, inside the box
`[77,20,78,21]`. -/
def villageInsideBox : VillageRow :=
  { gid := some "g-in", name := "Akola", state := some "Maharashtra", district := none,
    block := none, centroid_lat := some (Rat.divInt 41 2),
    centroid_lon := some (Rat.divInt 155 2) }

/-- C5: on the box `[77,20,78,21]` the fallback bbox query includes the inside
Village and excludes the outside one — the handler maps minLat/maxLat to
`centroid_lat` and minLon/maxLon to `centroid_lon` with the parameters bound
in the right order. -/
theorem bbox_binding_inside_outside :
    villageInsideBox ∈
        queryByBoundingBox [villageOutsideBox, villageInsideBox] 77 20 78 21 1000 ∧
      villageOutsideBox ∉
        queryByBoundingBox [villageOutsideBox, villageInsideBox] 77 20 78 21 1000 := by
  decide

/-- A boundary record with the given gid and name, a fixed district, and a
flag saying whether its INSERT fails. -/
def altFeature (g v : String) (fail : Bool) : Feature where
  props :=
    { gid := some g, name := some v, NAME := none, state := none, STATE := none,
      district := some "TestDistrict", DISTRICT := none, block := none, BLOCK := none }
  insertFails := fail

/-- A 22-record dataset alternating failing and succeeding records: the
failing records are at the even positions, so no two failures are adjacent. -/
def altDataset : List Feature :=
  [altFeature "g00" "V00" true, altFeature "g01" "V01" false,
    altFeature "g02" "V02" true, altFeature "g03" "V03" false,
    altFeature "g04" "V04" true, altFeature "g05" "V05" false,
    altFeature "g06" "V06" true, altFeature "g07" "V07" false,
    altFeature "g08" "V08" true, altFeature "g09" "V09" false,
    altFeature "g10" "V10" true, altFeature "g11" "V11" false,
    altFeature "g12" "V12" true, altFeature "g13" "V13" false,
    altFeature "g14" "V14" true, altFeature "g15" "V15" false,
    altFeature "g16" "V16" true, altFeature "g17" "V17" false,
    altFeature "g18" "V18" true, altFeature "g19" "V19" false,
    altFeature "g20" "V20" true, altFeature "g21" "V21" false]

/-- Length of the longest run of consecutive failing records, accumulator
form. -/
def failRunsAux : List Feature → Nat → Nat → Nat
  | [], cur, best => max cur best
  | f :: rest, cur, best =>
    if f.insertFails then failRunsAux rest (cur + 1) (max (cur + 1) best)
    else failRunsAux rest 0 best

/-- Length of the longest run of consecutive failing records in a dataset. -/
def maxConsecFails (fs : List Feature) : Nat := failRunsAux fs 0 0

/-- C2 counterexample: on `altDataset` no two failures are consecutive (the
longest failure run has length 1), yet `importVillages` halts with
`errors = 11`, having imported only the 10 successes seen before the halt and
never processing the final record.  The abort is therefore driven by the
cumulative error count, not by 11 consecutive failures as the claim states. -/
theorem import_halts_without_consecutive_failures :
    maxConsecFails altDataset = 1 ∧
      (importVillages [] altDataset).halted = true ∧
      (importVillages [] altDataset).errors = 11 ∧
      (importVillages [] altDataset).imported = 10 ∧
      (importVillages [] altDataset).skipped = 0 := by
  decide

/-- C2 amended: the pipeline halts exactly when the cumulative (not
necessarily consecutive) error count reaches 11 — the fixed budget of 10
tolerated failures plus the 11th failure that trips `errors > 10`; a run that
does not halt has at most 10 errors; prior successful inserts are never
rolled back (the starting table stays a prefix of the final one); and once
halted, records appended after the halting dataset are never processed. -/
theorem import_error_budget_cumulative (db0 : List VillageRow) (fs : List Feature) :
    ((importVillages db0 fs).halted = true ↔ (importVillages db0 fs).errors = 11) ∧
      ((importVillages db0 fs).halted = false → (importVillages db0 fs).errors ≤ 10) ∧
      (∃ rest, (importVillages db0 fs).db = db0 ++ rest) ∧
      (∀ gs, (importVillages db0 fs).halted = true →
        importVillages db0 (fs ++ gs) = importVillages db0 fs) := by
  have hb := foldl_budget fs (initImportState db0) (by simp [initImportState])
    (by simp [initImportState])
  refine ⟨⟨hb.1, ?_⟩, hb.2, foldl_db_extends fs (initImportState db0), ?_⟩
  · intro h11
    cases hhal : (importVillages db0 fs).halted with
    | true => rfl
    | false =>
      have h10 := hb.2 hhal
      rw [importVillages] at h11
      omega
  · intro gs h
    rw [importVillages, List.foldl_append]
    exact foldl_frozen gs _ h

/-- One more well-formed record, used to show a halted run ignores appended
records. -/
def extraFeature : Feature := altFeature "g99" "V99" false

/-- Witness for the amended C2: instantiated on the alternating dataset, the
halted flag forces `errors = 11`, and appending one more record leaves the
result untouched. -/
theorem import_error_budget_cumulative_witness :
    (importVillages [] altDataset).errors = 11 ∧
      importVillages [] (altDataset ++ [extraFeature]) = importVillages [] altDataset :=
  ⟨(import_error_budget_cumulative [] altDataset).1.mp (by decide),
    (import_error_budget_cumulative [] altDataset).2.2.2 [extraFeature] (by decide)⟩

/-- C3: re-running `importVillages` on the same dataset, when every record has
a stable non-NULL external id and the store rejects nothing, inserts zero net
new Villages: every record of the second run hits the existence check (by
external id or by name+district), the table is left exactly as the first run
left it, and every record is counted as skipped. -/
theorem ingest_twice_inserts_nothing (db0 : List VillageRow) (fs : List Feature)
    (hok : ∀ f ∈ fs, f.insertFails = false)
    (hgid : ∀ f ∈ fs, (extractVillageData f.props).gid ≠ none) :
    (importVillages (importVillages db0 fs).db fs).imported = 0 ∧
      (importVillages (importVillages db0 fs).db fs).db = (importVillages db0 fs).db ∧
      (importVillages (importVillages db0 fs).db fs).skipped = fs.length := by
  have hcov := run_covers fs (initImportState db0) (by simp [initImportState]) hok hgid
  have h2 := run_all_skip fs (initImportState (importVillages db0 fs).db)
    (by simp [initImportState])
    (by
      intro f hf
      obtain ⟨row, hmem, hmatch⟩ := hcov f hf
      exact ⟨row, by simpa [initImportState, importVillages] using hmem, hmatch⟩)
  rw [show importVillages (importVillages db0 fs).db fs =
    List.foldl processFeature (initImportState (importVillages db0 fs).db) fs from rfl, h2]
  simp [initImportState]

/-- A well-identified boundary record. -/
def gFeature : Feature where
  props :=
    { gid := some "OD-1001", name := some "Rampur", NAME := none, state := some "Odisha",
      STATE := none, district := some "Khordha", DISTRICT := none, block := none, BLOCK := none }
  insertFails := false

/-- Witness for C3 on a one-record dataset with a stable gid. -/
theorem ingest_twice_inserts_nothing_witness :
    (importVillages (importVillages [] [gFeature]).db [gFeature]).imported = 0 ∧
      (importVillages (importVillages [] [gFeature]).db [gFeature]).db =
        (importVillages [] [gFeature]).db ∧
      (importVillages (importVillages [] [gFeature]).db [gFeature]).skipped = 1 :=
  ingest_twice_inserts_nothing [] [gFeature] (by decide) (by decide)

/-- C10: a record whose extracted gid and district are both NULL can never
match any existing row in the dedupe existence check — `gid = NULL` is never
satisfied and neither is the conjunction `name = $2 AND district = NULL` —
so each run of the ingestion over that record inserts a fresh duplicate row. -/
theorem null_identity_reingests_duplicates (db0 : List VillageRow) (f : Feature)
    (hg : (extractVillageData f.props).gid = none)
    (hd : (extractVillageData f.props).district = none)
    (hf : f.insertFails = false) :
    (∀ row : VillageRow, dedupeMatch row (extractVillageData f.props) = false) ∧
      (importVillages db0 [f]).db = db0 ++ [rowOfData (extractVillageData f.props)] ∧
      (importVillages (importVillages db0 [f]).db [f]).db =
        db0 ++ [rowOfData (extractVillageData f.props),
          rowOfData (extractVillageData f.props)] := by
  have hnm : ∀ row : VillageRow, dedupeMatch row (extractVillageData f.props) = false := by
    intro row
    rw [dedupeMatch, hg, hd]
    cases row.gid <;> cases row.district <;> simp [sqlEqS]
  have hstep : ∀ X : List VillageRow,
      importVillages X [f] =
        { db := X ++ [rowOfData (extractVillageData f.props)], imported := 1,
          skipped := 0, errors := 0, halted := false } := by
    intro X
    have hany : (X.any fun row => dedupeMatch row (extractVillageData f.props)) = false := by
      rw [List.any_eq_false]
      intro row _
      simp [hnm row]
    simp [importVillages, initImportState, processFeature, hany, hf]
  refine ⟨hnm, ?_, ?_⟩
  · rw [hstep db0]
  · rw [hstep db0, hstep]
    simp

/-- A record with no gid, no district, only a name. -/
def anonFeature : Feature where
  props :=
    { gid := none, name := some "Jagannathpur", NAME := none, state := none, STATE := none,
      district := none, DISTRICT := none, block := none, BLOCK := none }
  insertFails := false

/-- Witness for C10: ingesting the anonymous record twice over an empty table
leaves two identical rows. -/
theorem null_identity_reingests_duplicates_witness :
    (importVillages [] [anonFeature]).db =
        [rowOfData (extractVillageData anonFeature.props)] ∧
      (importVillages (importVillages [] [anonFeature]).db [anonFeature]).db =
        [rowOfData (extractVillageData anonFeature.props),
          rowOfData (extractVillageData anonFeature.props)] :=
  ⟨(null_identity_reingests_duplicates [] anonFeature rfl rfl rfl).2.1,
    (null_identity_reingests_duplicates [] anonFeature rfl rfl rfl).2.2⟩

set_option maxRecDepth 8000 in
/-- C6: for both values of the capability flag — every statement succeeding
(PostGIS present) and the spatial enables failing (PostGIS absent) —
provisioning an empty store succeeds, running `initializeSchema` a second
time returns exactly the state the first run produced, and no duplicate
extensions, tables, indexes, functions or triggers exist after either run. -/
theorem schema_provisioning_idempotent :
    (initializeSchema oracleFull emptySchema).bind (initializeSchema oracleFull) =
        initializeSchema oracleFull emptySchema ∧
      schemaNoDup (initializeSchema oracleFull emptySchema) = true ∧
      (initializeSchema oracleNoSpatial emptySchema).bind (initializeSchema oracleNoSpatial) =
        initializeSchema oracleNoSpatial emptySchema ∧
      schemaNoDup (initializeSchema oracleNoSpatial emptySchema) = true := by
  decide

/-- C7: provisioning succeeds exactly when every table statement and every
(mode-selected) trigger/function statement succeeds — no index key occurs in
the condition, so an index-creation failure alone never aborts
`initializeSchema`; any failing table statement makes the whole run fail; and
when the trigram index fails while the plain name index works, the plain
`idx_villages_name` substitute ends up in the schema. -/
theorem table_failures_fatal_index_failures_warn (o : Oracle) (st : SchemaState) :
    (isOkE (initializeSchema o st) =
        (tableOps.all (fun op => !o.fails (opKey op)) &&
          (triggerOps (!(o.fails "ext:postgis"))).all (fun op => !o.fails (opKey op)))) ∧
      (∀ op ∈ tableOps, o.fails (opKey op) = true → isOkE (initializeSchema o st) = false) ∧
      (o.fails "index:idx_villages_name_trgm" = true →
        o.fails "index:idx_villages_name" = false →
        ∀ pg, "idx_villages_name" ∈ (createIndexes o pg st).indexes) := by
  refine ⟨initializeSchema_isOk o st, ?_, ?_⟩
  · intro op hop hfail
    rw [initializeSchema_isOk o st]
    have hall : tableOps.all (fun op => !o.fails (opKey op)) = false := by
      apply Bool.eq_false_iff.mpr
      intro hcontra
      have := List.all_eq_true.mp hcontra op hop
      rw [hfail] at this
      exact absurd this (by simp)
    rw [hall, Bool.false_and]
  · intro htr hpl pg
    exact createIndexes_fallback_name_index o pg st htr hpl

/-- Oracle of a store where creating the `claimants` table fails. -/
def oracleTableFail : Oracle := ⟨fun k => k == "table:claimants"⟩

/-- Oracle of a store where only the trigram index cannot be created. -/
def oracleTrgmFail : Oracle := ⟨fun k => k == "index:idx_villages_name_trgm"⟩

/-- Witness for C7: a failing table statement makes provisioning fail, and a
failing trigram index yields the plain name index instead. -/
theorem table_failures_fatal_index_failures_warn_witness :
    isOkE (initializeSchema oracleTableFail emptySchema) = false ∧
      "idx_villages_name" ∈ (createIndexes oracleTrgmFail false emptySchema).indexes :=
  ⟨(table_failures_fatal_index_failures_warn oracleTableFail emptySchema).2.1
      (SchemaOp.tbl "claimants") (by decide) (by decide),
    (table_failures_fatal_index_failures_warn oracleTrgmFail emptySchema).2.2
      (by decide) (by decide) false⟩

/-- C8: for every oracle, `enableExtensions` attempts the four optional
extensions in the fixed order trigram text search, composite-index support,
native spatial type, spatial topology; it never throws (every enable failure
is swallowed — the `CapabilityError` rethrow is reserved for a required
extension, and the source marks all four as not required, so that branch is
unreachable); and the recorded `postgisAvailable` boolean is true exactly
when the `postgis` enable succeeded. -/
theorem capability_probe_contract (o : Oracle) (st : SchemaState) :
    ∃ s, enableExtensions o st =
      Except.ok (s, !(o.fails "ext:postgis"),
        ["pg_trgm", "btree_gist", "postgis", "postgis_topology"]) :=
  enableExtensions_spec o st

theorem statsLoop_keys (o : Oracle) (counts : String → Nat) (ts : List String) :
    (statsLoop o counts ts).map Prod.fst = ts := by
  induction ts with
  | nil => rfl
  | cons t ts ih => simp [statsLoop, ih]

theorem statsLoop_mem (o : Oracle) (counts : String → Nat) (ts : List String) (t : String)
    (ht : t ∈ ts) :
    (t, if o.fails ("count:" ++ t) then StatEntry.errorMarker else StatEntry.count (counts t)) ∈
      statsLoop o counts ts := by
  induction ts with
  | nil => cases ht
  | cons u ts ih =>
    rcases List.mem_cons.mp ht with h | h
    · subst h
      exact List.mem_cons_self _ _
    · exact List.mem_cons_of_mem _ (ih h)

theorem statsLoop_val (o : Oracle) (counts : String → Nat) (ts : List String) (t : String)
    (e : StatEntry) (h : (t, e) ∈ statsLoop o counts ts) :
    e = if o.fails ("count:" ++ t) then StatEntry.errorMarker
        else StatEntry.count (counts t) := by
  induction ts with
  | nil => cases h
  | cons u ts ih =>
    rcases List.mem_cons.mp h with h1 | h1
    · injection h1 with ht he
      subst ht
      rw [he]
    · exact ih h1

/-- C9: for every pattern of per-table count failures, `getDatabaseStats`
returns one entry per entity table, in table order; a table whose count query
fails carries exactly the error marker, every other table carries its row
count, and the value of every returned entry is determined that way — a
per-table failure never fails the whole call. -/
theorem stats_error_marker_per_table (o : Oracle) (counts : String → Nat) :
    ((getDatabaseStats o counts).map Prod.fst = entityTables) ∧
      (∀ t ∈ entityTables, o.fails ("count:" ++ t) = true →
        (t, StatEntry.errorMarker) ∈ getDatabaseStats o counts) ∧
      (∀ t ∈ entityTables, o.fails ("count:" ++ t) = false →
        (t, StatEntry.count (counts t)) ∈ getDatabaseStats o counts) ∧
      (∀ t e, (t, e) ∈ getDatabaseStats o counts →
        e = if o.fails ("count:" ++ t) then StatEntry.errorMarker
            else StatEntry.count (counts t)) := by
  refine ⟨statsLoop_keys o counts entityTables, ?_, ?_, ?_⟩
  · intro t ht hf
    have h := statsLoop_mem o counts entityTables t ht
    rwa [if_pos hf] at h
  · intro t ht hf
    have h := statsLoop_mem o counts entityTables t ht
    rwa [if_neg (by simp [hf])] at h
  · intro t e h
    exact statsLoop_val o counts entityTables t e h

/-- Oracle of a store where only the `documents` count query fails. -/
def oracleDocsFail : Oracle := ⟨fun k => k == "count:documents"⟩

/-- Witness for C9: with only the `documents` count failing, that table gets
the error marker while `villages` still reports its count. -/
theorem stats_error_marker_per_table_witness :
    ("documents", StatEntry.errorMarker) ∈ getDatabaseStats oracleDocsFail (fun _ => 7) ∧
      ("villages", StatEntry.count 7) ∈ getDatabaseStats oracleDocsFail (fun _ => 7) :=
  ⟨(stats_error_marker_per_table oracleDocsFail (fun _ => 7)).2.1 "documents"
      (by decide) (by decide),
    (stats_error_marker_per_table oracleDocsFail (fun _ => 7)).2.2.1 "villages"
      (by decide) (by decide)⟩
